import Mathlib

/-
  Shallow embedding of the personal finance tracker (src/app.py).

  Persistence is modelled as explicit in-memory lists standing for the three
  SQLite relations (users, entries, budgets); each store operation takes the
  current table and returns the updated one.  Monetary amounts (SQLite REAL)
  are modelled as rationals; dates (stored as ISO-8601 text and parsed by
  pandas) as a year/month/day record.  The SHA-256 digest is modelled as an
  abstract function parameter, since the claims depend only on the digest
  being a deterministic function of the password.

  The pandas DataFrame returned by get_entries_df is modelled by EntriesDF:
  the rows plus a flag recording whether the date column was converted to
  datetime (app.py line 93 performs the conversion only when the frame is
  non-empty, so on an empty frame the later `.dt` access in
  check_budget_notifications raises AttributeError; this failure path is
  modelled with Except).
-/

namespace FinanceTracker

/-- Message returned by validate_password when the password is shorter than 8. -/
def lengthMsg : String := "Password must be at least 8 characters long."

/-- Message returned by validate_password when no ASCII uppercase letter occurs. -/
def upperMsg : String := "Password must contain at least one uppercase letter."

/-- Message returned by register_user on a duplicate username. -/
def dupMsg : String := "Username already exists."

/-- Message returned by register_user on success. -/
def okMsg : String := "Account created successfully."

/-- Matches the regex [A-Z] of app.py line 43: an ASCII uppercase letter. -/
def isAsciiUpper (c : Char) : Bool := 65 ≤ c.toNat && c.toNat ≤ 90

/-- app.py lines 39-45: password policy. Returns the first violated rule
message (length before case), or the empty string when valid. -/
def validate_password (password : String) : String :=
  if password.length < 8 then lengthMsg
  else if !(password.data.any isAsciiUpper) then upperMsg
  else ""

/-- One row of the users table: id, username, password (the stored digest). -/
structure UserRec where
  id : Nat
  username : String
  password : String
deriving DecidableEq, Repr

/-- The UNIQUE constraint check on users.username: some row already has it. -/
def usernameExists (users : List UserRec) (username : String) : Bool :=
  users.any (fun u => u.username == username)

/-- app.py lines 47-60: validate the password, then INSERT the username with
the hashed password; the UNIQUE constraint turns a duplicate username into an
IntegrityError answered with dupMsg.  Returns ((ok, message), (users, nextId)). -/
def register_user (hash : String → String) (users : List UserRec) (nextId : Nat)
    (username password : String) : (Bool × String) × (List UserRec × Nat) :=
  let pwd_error := validate_password password
  if pwd_error ≠ "" then ((false, pwd_error), (users, nextId))
  else if usernameExists users username then ((false, dupMsg), (users, nextId))
  else ((true, okMsg), (users ++ [⟨nextId, username, hash password⟩], nextId + 1))

/-- app.py lines 62-67: SELECT * FROM users WHERE username=? AND password=?,
fetchone: the first row matching both username and hashed password. -/
def login_user (hash : String → String) (users : List UserRec)
    (username password : String) : Option UserRec :=
  users.find? (fun u => u.username == username && u.password == hash password)

/-- A calendar date as pandas exposes it after to_datetime. -/
structure Date where
  year : Nat
  month : Nat
  day : Nat
deriving DecidableEq, Repr

/-- One row of the entries table. -/
structure Entry where
  id : Nat
  user_id : Nat
  type : String
  category : String
  amount : ℚ
  date : Date
deriving DecidableEq, Repr

/-- app.py lines 70-75: INSERT one immutable entries row. -/
def add_entry (entries : List Entry) (nextId : Nat) (user_id : Nat)
    (etype category : String) (amount : ℚ) (date : Date) : List Entry × Nat :=
  (entries ++ [⟨nextId, user_id, etype, category, amount, date⟩], nextId + 1)

/-- One row of the budgets table. -/
structure Budget where
  id : Nat
  user_id : Nat
  category : String
  amount : ℚ
  month : Nat
  year : Nat
deriving DecidableEq, Repr

/-- The WHERE clause user_id=? AND category=? AND month=? AND year=? shared by
the SELECT and UPDATE statements of set_budget. -/
def matchKey (user_id : Nat) (category : String) (month year : Nat) (b : Budget) : Bool :=
  b.user_id == user_id && b.category == category && b.month == month && b.year == year

/-- app.py lines 77-88: upsert. If a row for the key exists, UPDATE the amount
of every row matching the key; else INSERT a fresh row. -/
def set_budget (budgets : List Budget) (nextId : Nat) (user_id : Nat)
    (category : String) (amount : ℚ) (month year : Nat) : List Budget × Nat :=
  if budgets.any (matchKey user_id category month year) then
    (budgets.map (fun b =>
      if matchKey user_id category month year b then { b with amount := amount } else b),
     nextId)
  else
    (budgets ++ [⟨nextId, user_id, category, amount, month, year⟩], nextId + 1)

/-- app.py lines 97-100: SELECT * FROM budgets WHERE user_id=? AND year=? AND month=?. -/
def get_budgets (budgets : List Budget) (user_id year month : Nat) : List Budget :=
  budgets.filter (fun b => b.user_id == user_id && b.year == year && b.month == month)

/-- The DataFrame produced by get_entries_df: its rows, and whether the date
column holds datetime values (pandas to_datetime is applied only when the
frame is non-empty, app.py lines 93-94). -/
structure EntriesDF where
  rows : List Entry
  dateParsed : Bool
deriving DecidableEq, Repr

/-- app.py lines 90-95: SELECT the entries of one user; convert the date
column to datetime only when the result is non-empty. -/
def get_entries_df (entries : List Entry) (user_id : Nat) : EntriesDF :=
  let rows := entries.filter (fun e => e.user_id == user_id)
  ⟨rows, !rows.isEmpty⟩

/-- The row filter of app.py lines 109-111: type == expense and the date falls
in the requested year and month. -/
def isMonthExpense (year month : Nat) (e : Entry) : Bool :=
  e.type == "expense" && e.date.year == year && e.date.month == month

/-- The AttributeError message pandas raises for `.dt` on a non-datetime column. -/
def dtError : String := "Can only use .dt accessor with datetimelike values"

/-- The pandas Series built at app.py lines 109-111 by groupby(category).sum():
a category is present iff at least one filtered row has it, mapped to the sum
of their amounts. -/
def spentFun (rows : List Entry) (year month : Nat) : String → Option ℚ :=
  fun category =>
    let rs := rows.filter (fun e => isMonthExpense year month e && e.category == category)
    if rs.isEmpty then none
    else some ((rs.map Entry.amount).sum)

/-- The aggregation of app.py lines 108-111 applied to a fetched DataFrame:
accessing df.date.dt raises unless the date column is datetime, which fails
exactly when the user has no entries at all. -/
def spend_by_category (df : EntriesDF) (year month : Nat) :
    Except String (String → Option ℚ) :=
  if df.dateParsed then Except.ok (spentFun df.rows year month)
  else Except.error dtError

/-- One tiered alert of app.py lines 118-129, as pure data (tier, category,
used, amount; the two percentage tiers also carry pct).  The verbatim message
text around these fields is presentation and not modelled. -/
inductive Notification where
  | exceeded (category : String) (used amount : ℚ)
  | almostUsed (category : String) (used amount : ℚ)
  | warning (category : String) (pct used amount : ℚ)
  | earlyAlert (category : String) (pct used amount : ℚ)
deriving DecidableEq, Repr

/-- The loop body of app.py lines 114-129 for one budget row: used defaults to
0 when the category is absent from the spent Series; the ratio is computed
only under amount > 0, then the four thresholds are tried in descending
order, first match wins. -/
def budget_notification (spent : String → Option ℚ) (b : Budget) : Option Notification :=
  let used := (spent b.category).getD 0
  if 0 < b.amount then
    let pct := used / b.amount
    if 1 ≤ pct then some (Notification.exceeded b.category used b.amount)
    else if 3/4 ≤ pct then some (Notification.almostUsed b.category used b.amount)
    else if 1/2 ≤ pct then some (Notification.warning b.category pct used b.amount)
    else if 1/4 ≤ pct then some (Notification.earlyAlert b.category pct used b.amount)
    else none
  else none

/-- app.py lines 103-130: fetch the budgets of the period, return [] when there
are none; otherwise aggregate the user entries (which raises when the user
has no entries at all) and collect the per-row notifications in budget order. -/
def check_budget_notifications (entries : List Entry) (budgets : List Budget)
    (user_id year month : Nat) : Except String (List Notification) :=
  let bs := get_budgets budgets user_id year month
  if bs.isEmpty then Except.ok []
  else
    match spend_by_category (get_entries_df entries user_id) year month with
    | Except.error e => Except.error e
    | Except.ok spent => Except.ok (bs.filterMap (budget_notification spent))

/-- The per-user entries of one category that the aggregation sums: owned by
the user, type expense, dated in the requested year and month. -/
def monthCategoryExpenses (entries : List Entry) (user_id year month : Nat)
    (category : String) : List Entry :=
  entries.filter (fun e =>
    e.user_id == user_id && (isMonthExpense year month e && e.category == category))

/-- The uniqueness invariant of the budgets table: at most one row per
(user_id, category, month, year) key. -/
def atMostOnePerKey (budgets : List Budget) : Prop :=
  ∀ (user_id : Nat) (category : String) (month year : Nat),
    (budgets.filter (matchKey user_id category month year)).length ≤ 1

/-- A sequence of sequential set_budget calls, each argument tuple
(user_id, category, amount, month, year), folded over the store state. -/
def applyBudgetCalls (st : List Budget × Nat)
    (calls : List (Nat × String × ℚ × Nat × Nat)) : List Budget × Nat :=
  calls.foldl (fun st c => set_budget st.1 st.2 c.1 c.2.1 c.2.2.1 c.2.2.2.1 c.2.2.2.2) st

/-- Entries of the spec scenario for the notification engine: income Salary
5000 on 2024-06-01, expense Food 300 on 2024-06-05, expense Food 450 on
2024-06-20, all owned by user 1. -/
def c1Entries : List Entry :=
  [⟨1, 1, "income", "Salary", 5000, ⟨2024, 6, 1⟩⟩,
   ⟨2, 1, "expense", "Food", 300, ⟨2024, 6, 5⟩⟩,
   ⟨3, 1, "expense", "Food", 450, ⟨2024, 6, 20⟩⟩]

/-- Budgets of the spec scenario: Food = 1000 for user 1 in (2024, 6). -/
def c1Budgets : List Budget := [⟨1, 1, "Food", 1000, 6, 2024⟩]

/-- A small ledger used to instantiate the aggregation theorems: one matching
expense, one income of the same month, one expense of another month. -/
def w5Entries : List Entry :=
  [⟨1, 1, "expense", "Food", 300, ⟨2024, 6, 5⟩⟩,
   ⟨2, 1, "income", "Salary", 5000, ⟨2024, 6, 1⟩⟩,
   ⟨3, 1, "expense", "Food", 200, ⟨2024, 5, 2⟩⟩]

/-- A one-entry ledger whose only expense is in category Transport. -/
def w6Entries : List Entry := [⟨1, 1, "expense", "Transport", 100, ⟨2024, 6, 2⟩⟩]

/-! Theorems. -/

/-- The regex [A-Z] of the source matches exactly the characters between
A and Z inclusive. -/
theorem isAsciiUpper_iff (c : Char) : isAsciiUpper c = true ↔ 'A' ≤ c ∧ c ≤ 'Z' := by
  rw [isAsciiUpper, Bool.and_eq_true, decide_eq_true_iff, decide_eq_true_iff]
  exact Iff.rfl

/-- C4: validate_password returns the empty string iff the password has length
at least 8 and contains an ASCII uppercase letter; whenever the length rule is
violated (in particular when both rules are) the length message is returned. -/
theorem C4_validate_password_spec (p : String) :
    (validate_password p = "" ↔ 8 ≤ p.length ∧ ∃ c ∈ p.data, 'A' ≤ c ∧ c ≤ 'Z') ∧
    (p.length < 8 → validate_password p = lengthMsg) := by
  constructor
  · unfold validate_password
    split
    · rename_i h
      simp only [show lengthMsg ≠ "" from by decide, false_iff]
      intro hc
      omega
    · rename_i h
      split
      · rename_i h2
        simp only [show upperMsg ≠ "" from by decide, false_iff]
        intro hc
        rcases hc.2 with ⟨c, hcm, hcu⟩
        have := List.any_eq_true.mpr ⟨c, hcm, (isAsciiUpper_iff c).mpr hcu⟩
        simp [this] at h2
      · rename_i h2
        simp only [true_iff]
        refine ⟨by omega, ?_⟩
        rcases List.any_eq_true.mp (by simpa using h2) with ⟨c, hcm, hcu⟩
        exact ⟨c, hcm, (isAsciiUpper_iff c).mp hcu⟩
  · intro h
    simp [validate_password, h]

/-- Witness for C4 at the password abc: too short, so the length message. -/
theorem C4_witness : "abc".length < 8 ∧ validate_password "abc" = lengthMsg :=
  ⟨by decide, (C4_validate_password_spec "abc").2 (by decide)⟩

/-- C3 counterexample: the username bob is absent from an empty credential
store, yet register_user with the (weak) password weak does not succeed: it
fails with the password-length message, not with the duplicate message, so
failure is not equivalent to the username existing and an absent username
does not guarantee success. -/
theorem C3_counterexample :
    usernameExists [] "bob" = false ∧
    (register_user (fun s => s) [] 1 "bob" "weak").1 = (false, lengthMsg) ∧
    lengthMsg ≠ dupMsg := by
  refine ⟨by decide, by decide, by decide⟩

/-- C3 amended: for passwords that pass validation, register_user fails with
the duplicate-username message iff the username already exists; when the
username is absent it appends the row with the hashed password and succeeds.
(When the password fails validation the call instead fails with the
validation message, whatever the store contains.) -/
theorem C3_register_amended (hash : String → String) (users : List UserRec)
    (nextId : Nat) (username password : String)
    (hpw : validate_password password = "") :
    ((register_user hash users nextId username password).1 = (false, dupMsg) ↔
      usernameExists users username = true) ∧
    (usernameExists users username = false →
      (register_user hash users nextId username password).1 = (true, okMsg) ∧
      (register_user hash users nextId username password).2 =
        (users ++ [⟨nextId, username, hash password⟩], nextId + 1)) := by
  by_cases hex : usernameExists users username
  · constructor
    · simp [register_user, hpw, hex]
    · intro hfalse
      rw [hex] at hfalse
      cases hfalse
  · constructor
    · simp [register_user, hpw, hex, show okMsg ≠ dupMsg from by decide]
    · intro _
      constructor
      · simp [register_user, hpw, hex]
      · simp [register_user, hpw, hex]

/-- Witness for C3 at an empty store and the valid password Password1. -/
theorem C3_witness :
    validate_password "Password1" = "" ∧
    (register_user (fun s => s) [] 1 "alice" "Password1").1 = (true, okMsg) :=
  ⟨by decide,
    ((C3_register_amended (fun s => s) [] 1 "alice" "Password1" (by decide)).2
      (by decide)).1⟩

/-- C7: a budget row with amount equal to zero yields no notification,
whatever was spent in its category. -/
theorem C7_zero_amount_no_notification (spent : String → Option ℚ) (b : Budget)
    (h : b.amount = 0) : budget_notification spent b = none := by
  simp [budget_notification, h]

/-- Witness for C7: amount 0 for category X with spend 99999 yields none. -/
theorem C7_witness :
    (Budget.mk 1 1 "X" 0 6 2024).amount = 0 ∧
    budget_notification (fun _ => some 99999) ⟨1, 1, "X", 0, 6, 2024⟩ = none :=
  ⟨rfl, C7_zero_amount_no_notification (fun _ => some 99999) ⟨1, 1, "X", 0, 6, 2024⟩ rfl⟩

/-- C10: the ratio is computed only under the guard amount > 0, so every
budget row with amount at most 0 (zero or negative) produces no notification;
and the budget store accepts a negative amount (set_budget inserts it). -/
theorem C10_nonpositive_amount_guard :
    (∀ (spent : String → Option ℚ) (b : Budget), b.amount ≤ 0 →
      budget_notification spent b = none) ∧
    set_budget [] 0 1 "Food" (-500) 6 2024 = ([⟨0, 1, "Food", -500, 6, 2024⟩], 1) := by
  constructor
  · intro spent b h
    simp [budget_notification, not_lt.mpr h]
  · rfl

/-- Witness for C10 at a negative budget amount and heavy spend. -/
theorem C10_witness :
    (Budget.mk 2 1 "Y" (-500) 6 2024).amount ≤ 0 ∧
    budget_notification (fun _ => some 1234) ⟨2, 1, "Y", -500, 6, 2024⟩ = none :=
  ⟨by norm_num, C10_nonpositive_amount_guard.1 (fun _ => some 1234)
    ⟨2, 1, "Y", -500, 6, 2024⟩ (by norm_num)⟩

/-- C8: when no stored budget row matches the requested user and period,
check_budget_notifications returns the empty list, whatever entries exist. -/
theorem C8_no_budgets_empty (entries : List Entry) (budgets : List Budget)
    (user_id year month : Nat)
    (h : ∀ b ∈ budgets, ¬(b.user_id = user_id ∧ b.year = year ∧ b.month = month)) :
    check_budget_notifications entries budgets user_id year month = Except.ok [] := by
  have hg : get_budgets budgets user_id year month = [] := by
    rw [get_budgets, List.filter_eq_nil_iff]
    intro b hb
    simp only [Bool.and_eq_true, beq_iff_eq, not_and]
    intro h12 h3
    exact absurd ⟨h12.1, h12.2, h3⟩ (h b hb)
  simp [check_budget_notifications, hg]

/-- Witness for C8: heavy spend recorded but the only budget is for another
month, so the result is empty. -/
theorem C8_witness :
    (∀ b ∈ [Budget.mk 1 1 "Food" 10 5 2024],
      ¬(b.user_id = 1 ∧ b.year = 2024 ∧ b.month = 6)) ∧
    check_budget_notifications [⟨1, 1, "expense", "Food", 100000, ⟨2024, 6, 5⟩⟩]
      [⟨1, 1, "Food", 10, 5, 2024⟩] 1 2024 6 = Except.ok [] :=
  ⟨by decide, C8_no_budgets_empty [⟨1, 1, "expense", "Food", 100000, ⟨2024, 6, 5⟩⟩]
    [⟨1, 1, "Food", 10, 5, 2024⟩] 1 2024 6 (by decide)⟩

/-- C1: for every budget row with positive amount, the emitted message is
determined first-match-wins by pct = used / amount against the descending
thresholds 1, 0.75, 0.5, 0.25, each tier exclusive of the one above, and
pct < 0.25 emits nothing; on the spec scenario (budget Food = 1000 for
(2024, 6); expenses Food 300 and 450 and income Salary 5000 in that month)
used = 750, pct = 0.75, and exactly the almost-used message for Food is
emitted. -/
theorem C1_tiered_first_match :
    (∀ (spent : String → Option ℚ) (b : Budget), 0 < b.amount →
      (budget_notification spent b =
          some (Notification.exceeded b.category ((spent b.category).getD 0) b.amount) ↔
        1 ≤ (spent b.category).getD 0 / b.amount) ∧
      (budget_notification spent b =
          some (Notification.almostUsed b.category ((spent b.category).getD 0) b.amount) ↔
        3/4 ≤ (spent b.category).getD 0 / b.amount ∧ (spent b.category).getD 0 / b.amount < 1) ∧
      (budget_notification spent b =
          some (Notification.warning b.category ((spent b.category).getD 0 / b.amount)
            ((spent b.category).getD 0) b.amount) ↔
        1/2 ≤ (spent b.category).getD 0 / b.amount ∧ (spent b.category).getD 0 / b.amount < 3/4) ∧
      (budget_notification spent b =
          some (Notification.earlyAlert b.category ((spent b.category).getD 0 / b.amount)
            ((spent b.category).getD 0) b.amount) ↔
        1/4 ≤ (spent b.category).getD 0 / b.amount ∧ (spent b.category).getD 0 / b.amount < 1/2) ∧
      (budget_notification spent b = none ↔ (spent b.category).getD 0 / b.amount < 1/4)) ∧
    check_budget_notifications c1Entries c1Budgets 1 2024 6 =
      Except.ok [Notification.almostUsed "Food" 750 1000] := by
  constructor
  · intro spent b hb
    simp only [budget_notification, if_pos hb]
    set pct := (spent b.category).getD 0 / b.amount with hpct
    split_ifs with h1 h2 h3 h4
    · exact ⟨iff_of_true rfl h1,
        iff_of_false (by simp) (fun hc => absurd h1 (not_le.mpr hc.2)),
        iff_of_false (by simp)
          (fun hc => absurd h1 (not_le.mpr (lt_of_lt_of_le hc.2 (by norm_num)))),
        iff_of_false (by simp)
          (fun hc => absurd h1 (not_le.mpr (lt_of_lt_of_le hc.2 (by norm_num)))),
        iff_of_false (by simp)
          (fun hc => absurd h1 (not_le.mpr (lt_of_lt_of_le hc (by norm_num))))⟩
    · exact ⟨iff_of_false (by simp) h1,
        iff_of_true rfl ⟨h2, not_le.mp h1⟩,
        iff_of_false (by simp) (fun hc => absurd h2 (not_le.mpr hc.2)),
        iff_of_false (by simp)
          (fun hc => absurd h2 (not_le.mpr (lt_of_lt_of_le hc.2 (by norm_num)))),
        iff_of_false (by simp)
          (fun hc => absurd h2 (not_le.mpr (lt_of_lt_of_le hc (by norm_num))))⟩
    · exact ⟨iff_of_false (by simp) h1,
        iff_of_false (by simp) (fun hc => h2 hc.1),
        iff_of_true rfl ⟨h3, not_le.mp h2⟩,
        iff_of_false (by simp) (fun hc => absurd h3 (not_le.mpr hc.2)),
        iff_of_false (by simp)
          (fun hc => absurd h3 (not_le.mpr (lt_of_lt_of_le hc (by norm_num))))⟩
    · exact ⟨iff_of_false (by simp) h1,
        iff_of_false (by simp) (fun hc => h2 hc.1),
        iff_of_false (by simp) (fun hc => h3 hc.1),
        iff_of_true rfl ⟨h4, not_le.mp h3⟩,
        iff_of_false (by simp) (fun hc => absurd h4 (not_le.mpr hc))⟩
    · exact ⟨iff_of_false (by simp) h1,
        iff_of_false (by simp) (fun hc => h2 hc.1),
        iff_of_false (by simp) (fun hc => h3 hc.1),
        iff_of_false (by simp) (fun hc => h4 hc.1),
        iff_of_true rfl (not_le.mp h4)⟩
  · norm_num +decide [check_budget_notifications, get_budgets, get_entries_df,
      spend_by_category, spentFun, isMonthExpense, budget_notification, c1Entries,
      c1Budgets, List.filter_cons, List.filter_nil, List.filterMap_cons,
      List.filterMap_nil]

/-- Witness for C1: spend 750 of a 1000 budget gives the almost-used tier. -/
theorem C1_witness :
    (0 : ℚ) < (Budget.mk 1 1 "Food" 1000 6 2024).amount ∧
    budget_notification (fun _ => some 750) ⟨1, 1, "Food", 1000, 6, 2024⟩ =
      some (Notification.almostUsed "Food" 750 1000) :=
  ⟨by norm_num,
    ((C1_tiered_first_match.1 (fun _ => some 750) ⟨1, 1, "Food", 1000, 6, 2024⟩
      (by norm_num)).2.1).mpr ⟨by norm_num, by norm_num⟩⟩

/-- C5: for a user with at least one stored entry, the aggregation succeeds
and maps a category to the sum of amounts over exactly the user entries of
type expense dated in the requested year and month with that category
(income entries and entries of other periods are filtered out), while a
category with no matching expense entry is absent from the mapping; but for
a user with no entries at all the date column of the fetched frame is never
converted, the .dt access raises, and no mapping is produced. -/
theorem C5_spend_by_category_spec :
    (∀ (entries : List Entry) (user_id year month : Nat) (category : String),
      (get_entries_df entries user_id).rows ≠ [] →
      spend_by_category (get_entries_df entries user_id) year month =
        Except.ok (spentFun (get_entries_df entries user_id).rows year month) ∧
      (∀ e, e ∈ monthCategoryExpenses entries user_id year month category ↔
        e ∈ entries ∧ e.user_id = user_id ∧ e.type = "expense" ∧
          e.date.year = year ∧ e.date.month = month ∧ e.category = category) ∧
      (spentFun (get_entries_df entries user_id).rows year month category = none ↔
        monthCategoryExpenses entries user_id year month category = []) ∧
      (∀ q, spentFun (get_entries_df entries user_id).rows year month category = some q →
        q = ((monthCategoryExpenses entries user_id year month category).map Entry.amount).sum)) ∧
    spend_by_category (get_entries_df [] 1) 2024 6 = Except.error dtError := by
  have hcomp : ∀ (entries : List Entry) (user_id year month : Nat) (category : String),
      (get_entries_df entries user_id).rows.filter
          (fun e => isMonthExpense year month e && e.category == category) =
        monthCategoryExpenses entries user_id year month category := by
    intro entries user_id year month category
    simp only [get_entries_df, monthCategoryExpenses, List.filter_filter]
    apply List.filter_congr
    intro e _
    cases hu : e.user_id == user_id <;> simp [hu]
  constructor
  · intro entries user_id year month category hne
    have hparsed : (get_entries_df entries user_id).dateParsed = true := by
      simp only [get_entries_df] at hne ⊢
      simpa [List.isEmpty_iff] using hne
    refine ⟨?_, ?_, ?_, ?_⟩
    · rw [spend_by_category, if_pos hparsed]
    · intro e
      simp only [monthCategoryExpenses, isMonthExpense, List.mem_filter,
        Bool.and_eq_true, beq_iff_eq]
      tauto
    · rw [spentFun]
      simp only [hcomp]
      split
      · rename_i hemp
        simpa [List.isEmpty_iff] using hemp
      · rename_i hemp
        simp only [List.isEmpty_iff] at hemp
        simp [hemp]
    · intro q
      rw [spentFun]
      simp only [hcomp]
      split
      · intro hc
        cases hc
      · intro hc
        exact (Option.some.inj hc).symm
  · rfl

/-- Witness for C5: a ledger with one matching expense, one income and one
out-of-period expense has a non-empty frame and the aggregation succeeds. -/
theorem C5_witness :
    (get_entries_df w5Entries 1).rows ≠ [] ∧
    spend_by_category (get_entries_df w5Entries 1) 2024 6 =
      Except.ok (spentFun (get_entries_df w5Entries 1).rows 2024 6) :=
  ⟨by decide, ((C5_spend_by_category_spec.1 w5Entries 1 2024 6 "Food") (by decide)).1⟩

/-- C6: when the aggregation does produce a mapping, a budget row whose
category has no matching expense entry gets used = 0 and no notification;
but for a user with no entries at all and a budget present,
check_budget_notifications raises the .dt AttributeError instead of
emitting nothing. -/
theorem C6_absent_category :
    (∀ (entries : List Entry) (user_id year month : Nat)
      (spentf : String → Option ℚ) (b : Budget),
      spend_by_category (get_entries_df entries user_id) year month = Except.ok spentf →
      (∀ e ∈ entries, ¬(e.user_id = user_id ∧ e.type = "expense" ∧
        e.date.year = year ∧ e.date.month = month ∧ e.category = b.category)) →
      (spentf b.category).getD 0 = 0 ∧ budget_notification spentf b = none) ∧
    check_budget_notifications [] [⟨1, 1, "Food", 1000, 6, 2024⟩] 1 2024 6 =
      Except.error dtError := by
  constructor
  · intro entries user_id year month spentf b hok habs
    have hsf : spentf = spentFun (get_entries_df entries user_id).rows year month := by
      rw [spend_by_category] at hok
      split at hok
      · exact (Except.ok.inj hok).symm
      · exact Except.noConfusion hok
    have hnil : (get_entries_df entries user_id).rows.filter
        (fun e => isMonthExpense year month e && e.category == b.category) = [] := by
      rw [List.filter_eq_nil_iff]
      intro e he
      have hmem : e ∈ entries ∧ e.user_id = user_id := by
        simpa [get_entries_df, List.mem_filter] using he
      intro hcond
      simp only [isMonthExpense, Bool.and_eq_true, beq_iff_eq] at hcond
      exact habs e hmem.1 ⟨hmem.2, hcond.1.1.1, hcond.1.1.2, hcond.1.2, hcond.2⟩
    have hused : spentf b.category = none := by
      rw [hsf, spentFun]
      simp [hnil]
    refine ⟨by simp [hused], ?_⟩
    rw [budget_notification]
    norm_num [hused, zero_div]
  · rfl

/-- Witness for C6: one Transport expense, a Food budget: the mapping exists
and the Food row gets no notification. -/
theorem C6_witness :
    spend_by_category (get_entries_df w6Entries 1) 2024 6 =
      Except.ok (spentFun (get_entries_df w6Entries 1).rows 2024 6) ∧
    budget_notification (spentFun (get_entries_df w6Entries 1).rows 2024 6)
      ⟨9, 1, "Food", 1000, 6, 2024⟩ = none :=
  ⟨rfl, (C6_absent_category.1 w6Entries 1 2024 6 _ ⟨9, 1, "Food", 1000, 6, 2024⟩
    rfl (by decide)).2⟩

/-- C9 counterexample: after a successful registration of alice, a second
register for alice with the too-short password weak fails with the
password-length message, not with the duplicate-username message, so the
second call does not always fail with DuplicateUsername. -/
theorem C9_counterexample :
    (register_user (fun s => s) [] 1 "alice" "Password1").1 = (true, okMsg) ∧
    (register_user (fun s => s)
        ((register_user (fun s => s) [] 1 "alice" "Password1").2.1)
        ((register_user (fun s => s) [] 1 "alice" "Password1").2.2)
        "alice" "weak").1 = (false, lengthMsg) ∧
    lengthMsg ≠ dupMsg := by
  refine ⟨by decide, by decide, by decide⟩

/-- C9 amended: after register_user succeeds, a second register for the same
username whose password passes validation fails with the duplicate-username
message, and login_user with the original password returns the stored record
(the stored digest of the original password matches). -/
theorem C9_register_login_roundtrip (hash : String → String) (users : List UserRec)
    (nextId : Nat) (username p1 p2 : String)
    (h1 : (register_user hash users nextId username p1).1.1 = true)
    (hp2 : validate_password p2 = "") :
    (register_user hash ((register_user hash users nextId username p1).2.1)
        ((register_user hash users nextId username p1).2.2) username p2).1 =
      (false, dupMsg) ∧
    login_user hash ((register_user hash users nextId username p1).2.1) username p1 =
      some ⟨nextId, username, hash p1⟩ := by
  by_cases hv : validate_password p1 = ""
  · by_cases hex : usernameExists users username
    · exfalso
      simp [register_user, hv, hex] at h1
    · have hstate : (register_user hash users nextId username p1).2 =
          (users ++ [⟨nextId, username, hash p1⟩], nextId + 1) := by
        simp [register_user, hv, hex]
      have hnoteq : ∀ u ∈ users, ¬u.username = username := by
        simpa [usernameExists] using hex
      have hnotin : ∀ u ∈ users, (u.username == username) = false := by
        intro u hu
        simp [hnoteq u hu]
      constructor
      · have hex2 : usernameExists (users ++ [⟨nextId, username, hash p1⟩]) username = true := by
          simp [usernameExists]
        rw [hstate]
        simp [register_user, hp2, hex2]
      · rw [hstate]
        simp only [login_user, List.find?_append]
        have hfirst : users.find? (fun u => u.username == username && u.password == hash p1) =
            none := by
          rw [List.find?_eq_none]
          intro u hu
          simp [hnotin u hu]
        rw [hfirst]
        simp
  · exfalso
    simp [register_user, hv] at h1

/-- Witness for C9 at an empty store, username bob and two valid passwords. -/
theorem C9_witness :
    (register_user (fun s => s) [] 1 "bob" "Secret12").1.1 = true ∧
    ((register_user (fun s => s)
        ((register_user (fun s => s) [] 1 "bob" "Secret12").2.1)
        ((register_user (fun s => s) [] 1 "bob" "Secret12").2.2) "bob" "Twelve34").1 =
      (false, dupMsg) ∧
    login_user (fun s => s) ((register_user (fun s => s) [] 1 "bob" "Secret12").2.1)
        "bob" "Secret12" = some ⟨1, "bob", "Secret12"⟩) :=
  ⟨by decide, C9_register_login_roundtrip (fun s => s) [] 1 "bob" "Secret12" "Twelve34"
    (by decide) (by decide)⟩

/-- The UPDATE of set_budget touches only the amount column, so key fields
survive and filtering by any key commutes with the update map. -/
theorem filter_map_update (budgets : List Budget) (user_id : Nat) (category : String)
    (month year : Nat) (a : ℚ) (uid2 : Nat) (cat2 : String) (m2 y2 : Nat) :
    (budgets.map (fun b =>
        if matchKey user_id category month year b then { b with amount := a } else b)).filter
      (matchKey uid2 cat2 m2 y2) =
    (budgets.filter (matchKey uid2 cat2 m2 y2)).map (fun b =>
        if matchKey user_id category month year b then { b with amount := a } else b) := by
  rw [List.filter_map]
  congr 1
  apply List.filter_congr
  intro b _
  simp only [Function.comp_apply]
  split <;> rfl

/-- A freshly inserted budget row matches a key iff the key is its own. -/
theorem matchKey_mk (user_id : Nat) (category : String) (month year nextId uid2 : Nat)
    (cat2 : String) (a : ℚ) (m2 y2 : Nat) :
    matchKey user_id category month year (⟨nextId, uid2, cat2, a, m2, y2⟩ : Budget) = true ↔
      uid2 = user_id ∧ cat2 = category ∧ m2 = month ∧ y2 = year := by
  simp [matchKey, and_assoc]

/-- One set_budget call preserves the at-most-one-row-per-key invariant. -/
theorem set_budget_preserves_inv (budgets : List Budget) (nextId : Nat) (user_id : Nat)
    (category : String) (a : ℚ) (month year : Nat) (h : atMostOnePerKey budgets) :
    atMostOnePerKey (set_budget budgets nextId user_id category a month year).1 := by
  intro uid2 cat2 m2 y2
  by_cases hex : budgets.any (matchKey user_id category month year) = true
  · simp only [set_budget, if_pos hex]
    rw [filter_map_update, List.length_map]
    exact h uid2 cat2 m2 y2
  · simp only [set_budget, if_neg hex]
    rw [List.filter_append]
    simp only [List.filter_cons, List.filter_nil]
    by_cases hk : matchKey uid2 cat2 m2 y2
        (⟨nextId, user_id, category, a, month, year⟩ : Budget) = true
    · rcases (matchKey_mk uid2 cat2 m2 y2 nextId user_id category a month year).mp hk with
        ⟨h1, h2, h3, h4⟩
      have hnil : budgets.filter (matchKey uid2 cat2 m2 y2) = [] := by
        rw [List.filter_eq_nil_iff]
        intro x hx hpx
        rw [h1, h2, h3, h4] at hex
        exact hex (List.any_eq_true.mpr ⟨x, hx, hpx⟩)
      simp [hk, hnil]
    · rw [Bool.not_eq_true] at hk
      simp only [hk, Bool.false_eq_true, if_false, List.append_nil]
      exact h uid2 cat2 m2 y2

/-- Any sequence of sequential set_budget calls preserves the invariant. -/
theorem applyBudgetCalls_preserves_inv (calls : List (Nat × String × ℚ × Nat × Nat)) :
    ∀ st : List Budget × Nat, atMostOnePerKey st.1 →
      atMostOnePerKey (applyBudgetCalls st calls).1 := by
  induction calls with
  | nil => exact fun st h => h
  | cons c rest ih =>
    intro st h
    exact ih _ (set_budget_preserves_inv st.1 st.2 c.1 c.2.1 c.2.2.1 c.2.2.2.1 c.2.2.2.2 h)

/-- After one set_budget call on an invariant-respecting store, exactly one
row matches the written key and it carries the written amount. -/
theorem set_budget_filter_singleton (budgets : List Budget) (nextId : Nat) (user_id : Nat)
    (category : String) (a : ℚ) (month year : Nat) (h : atMostOnePerKey budgets) :
    ∃ b0 : Budget,
      (set_budget budgets nextId user_id category a month year).1.filter
        (matchKey user_id category month year) = [b0] ∧ b0.amount = a := by
  by_cases hex : budgets.any (matchKey user_id category month year) = true
  · simp only [set_budget, if_pos hex]
    rw [filter_map_update]
    obtain ⟨c, hc⟩ : ∃ c, budgets.filter (matchKey user_id category month year) = [c] := by
      rcases List.any_eq_true.mp hex with ⟨x, hx, hpx⟩
      have hmem : x ∈ budgets.filter (matchKey user_id category month year) :=
        List.mem_filter.mpr ⟨hx, hpx⟩
      have hlen := h user_id category month year
      cases hl : budgets.filter (matchKey user_id category month year) with
      | nil => rw [hl] at hmem; cases hmem
      | cons d t =>
        rw [hl] at hlen
        simp only [List.length_cons] at hlen
        have ht : t = [] := List.eq_nil_of_length_eq_zero (by omega)
        exact ⟨d, by rw [ht]⟩
    have hck : matchKey user_id category month year c = true := by
      have : c ∈ budgets.filter (matchKey user_id category month year) := by
        rw [hc]; exact List.mem_singleton.mpr rfl
      exact (List.mem_filter.mp this).2
    rw [hc]
    refine ⟨{ c with amount := a }, ?_, rfl⟩
    simp [hck]
  · simp only [set_budget, if_neg hex]
    rw [List.filter_append]
    have hnil : budgets.filter (matchKey user_id category month year) = [] := by
      rw [List.filter_eq_nil_iff]
      intro x hx hpx
      exact hex (List.any_eq_true.mpr ⟨x, hx, hpx⟩)
    rw [hnil]
    refine ⟨⟨nextId, user_id, category, a, month, year⟩, ?_, rfl⟩
    simp [matchKey]

/-- C2: starting from any store respecting the one-row-per-key invariant,
every sequence of sequential set_budget calls preserves the invariant, and
after two set_budget calls for the same (user_id, category, month, year) key
the get_budgets rows of the period contain exactly one row of that category,
carrying the amount of the latest call. -/
theorem C2_set_budget_upsert (budgets : List Budget) (nextId : Nat)
    (hinv : atMostOnePerKey budgets) :
    (∀ calls, atMostOnePerKey (applyBudgetCalls (budgets, nextId) calls).1) ∧
    (∀ (user_id : Nat) (category : String) (a1 a2 : ℚ) (month year : Nat),
      ∃ b : Budget,
        (get_budgets
            (set_budget (set_budget budgets nextId user_id category a1 month year).1
              (set_budget budgets nextId user_id category a1 month year).2
              user_id category a2 month year).1
            user_id year month).filter (fun r => r.category == category) = [b] ∧
        b.amount = a2) := by
  constructor
  · intro calls
    exact applyBudgetCalls_preserves_inv calls (budgets, nextId) hinv
  · intro uid cat a1 a2 m y
    have hbridge : ∀ l : List Budget,
        (get_budgets l uid y m).filter (fun r => r.category == cat) =
          l.filter (matchKey uid cat m y) := by
      intro l
      rw [get_budgets, List.filter_filter]
      apply List.filter_congr
      intro b _
      cases h1 : b.user_id == uid <;> cases h2 : b.category == cat <;>
        cases h3 : b.month == m <;> cases h4 : b.year == y <;>
          simp [matchKey, h1, h2, h3, h4]
    rw [hbridge]
    obtain ⟨b1, hb1, _⟩ := set_budget_filter_singleton budgets nextId uid cat a1 m y hinv
    obtain ⟨l1, n1, hs1⟩ : ∃ l1 n1, set_budget budgets nextId uid cat a1 m y = (l1, n1) :=
      ⟨_, _, rfl⟩
    rw [hs1] at hb1 ⊢
    have hb1mem : b1 ∈ l1.filter (matchKey uid cat m y) := by
      rw [hb1]; exact List.mem_singleton.mpr rfl
    have hany : l1.any (matchKey uid cat m y) = true := by
      rcases List.mem_filter.mp hb1mem with ⟨hmem, hk⟩
      exact List.any_eq_true.mpr ⟨b1, hmem, hk⟩
    have hupd : (set_budget l1 n1 uid cat a2 m y).1 = l1.map (fun b =>
        if matchKey uid cat m y b then { b with amount := a2 } else b) := by
      simp only [set_budget, if_pos hany]
    rw [hupd, filter_map_update, hb1]
    have hk1 : matchKey uid cat m y b1 = true := (List.mem_filter.mp hb1mem).2
    refine ⟨{ b1 with amount := a2 }, ?_, rfl⟩
    simp [hk1]

/-- Witness for C2: from the empty store, set Food to 100 then to 200 for
user 1 in (2024, 6); the period rows of category Food are exactly one row
with amount 200. -/
theorem C2_witness :
    atMostOnePerKey ([] : List Budget) ∧
    (∃ b : Budget,
      (get_budgets
          (set_budget (set_budget [] 0 1 "Food" 100 6 2024).1
            (set_budget [] 0 1 "Food" 100 6 2024).2 1 "Food" 200 6 2024).1
          1 2024 6).filter (fun r => r.category == "Food") = [b] ∧
      b.amount = 200) :=
  ⟨fun _ _ _ _ => by simp,
    (C2_set_budget_upsert [] 0 (fun _ _ _ _ => by simp)).2 1 "Food" 100 200 6 2024⟩

end FinanceTracker
